import Mathlib

/-!
Shallow embedding of the instance lifecycle manager of `claude_ui`
(`src/claude_ui/services/claude_manager.py`), the websocket stream bridge
(`src/claude_ui/api/websocket.py`) and the tool-server config export
(`src/claude_ui/services/mcp_service.py`), together with proofs about the
claims of the specification.

Modelling conventions:
* Python dicts keyed by strings become association lists with
  insert-or-replace semantics (`aset`), preserving Python's dict ordering
  (update in place, new keys appended).
* `uuid.uuid4()` session identifiers are modelled as a fresh-counter `Nat`
  carried in the manager state: the only property the code relies on is
  freshness.
* `datetime.utcnow()` timestamps are modelled by a logical clock in the
  database state, ticked whenever a row is stamped; SQLAlchemy evaluates
  column defaults at flush (commit) time, so rows flushed by the same
  commit share a stamp and later commits get strictly larger stamps.
* Database commits are modelled as pure updates of a `DB` record; the
  filesystem block of `start_instance` (`os.path.exists` / `os.makedirs`)
  is recorded as an effect event, since no claim depends on directory
  contents.
* `start_instance` and `terminate_instance` additionally return the list
  of effect `Action`s they perform, in program order, with the registry
  lock acquisition and release made explicit (the `async with self._lock:`
  block).
-/

namespace ClaudeUI

instance {ε α : Type} [DecidableEq ε] [DecidableEq α] :
    DecidableEq (Except ε α) := fun x y =>
  match x, y with
  | Except.ok a, Except.ok b =>
    if h : a = b then isTrue (h ▸ rfl)
    else isFalse (fun hc => h (Except.ok.inj hc))
  | Except.ok _, Except.error _ => isFalse (fun hc => Except.noConfusion hc)
  | Except.error _, Except.ok _ => isFalse (fun hc => Except.noConfusion hc)
  | Except.error e, Except.error f =>
    if h : e = f then isTrue (h ▸ rfl)
    else isFalse (fun hc => h (Except.error.inj hc))

/-- Association-list lookup, mirroring Python `d[k]` / `k in d`. -/
def alookup {α : Type} (l : List (String × α)) (k : String) : Option α :=
  (l.find? (fun p => p.1 == k)).map (fun p => p.2)

/-- Association-list insert-or-replace, mirroring Python `d[k] = v`:
an existing key keeps its position, a new key is appended. -/
def aset {α : Type} (l : List (String × α)) (k : String) (v : α) :
    List (String × α) :=
  match l with
  | [] => [(k, v)]
  | (k', v') :: rest =>
    if k' == k then (k, v) :: rest else (k', v') :: aset rest k v

/-- Association-list delete, mirroring Python `del d[k]`. -/
def aerase {α : Type} (l : List (String × α)) (k : String) :
    List (String × α) :=
  match l with
  | [] => []
  | (k', v') :: rest =>
    if k' == k then rest else (k', v') :: aerase rest k

/-- In-memory handle for a running agent: `ClaudeInstance` in
`claude_manager.py` (instance id, working directory, environment overlay,
liveness flag, id of the session currently being served). -/
structure ClaudeInstance where
  instance_id : String
  working_dir : String
  env_vars : List (String × String)
  active : Bool
  current_session_id : Option Nat
deriving Repr, DecidableEq

/-- State of `ClaudeManager`: the registry dict `self.instances` plus the
fresh counter modelling `uuid.uuid4()` session-id generation. -/
structure ClaudeManager where
  instances : List (String × ClaudeInstance)
  nextUuid : Nat
deriving Repr, DecidableEq

/-- A fresh manager, as built by `ClaudeManager.__init__`. -/
def ClaudeManager.init : ClaudeManager := ⟨[], 0⟩

/-- Persisted `Instance` row (the fields the manager reads and writes). -/
structure InstanceRow where
  id : String
  status : String
  working_directory : Option String
  environment_vars : List (String × String)
  terminated_at : Option Nat
deriving Repr, DecidableEq

/-- Persisted `Session` row (the fields the manager reads and writes). -/
structure SessionRow where
  id : Nat
  instance_id : String
  status : String
  started_at : Nat
  ended_at : Option Nat
deriving Repr, DecidableEq

/-- Persisted `Message` row (the fields the manager reads and writes). -/
structure MessageRow where
  session_id : Nat
  role : String
  content : String
  timestamp : Nat
deriving Repr, DecidableEq

/-- The relational store reached through `get_db_context`, plus the
logical clock standing for `datetime.utcnow()`. -/
structure DB where
  instances : List InstanceRow
  sessions : List SessionRow
  messages : List MessageRow
  clock : Nat
deriving Repr, DecidableEq

/-- The errors the manager raises (`ValueError`s in the source) together
with a propagated stream exception. -/
inductive MgrError where
  /-- `ValueError(f"Instance {id} already exists")` -/
  | alreadyExists (id : String)
  /-- `ValueError(f"Maximum number of instances ({n}) reached")` -/
  | maxInstancesReached (n : Nat)
  /-- `ValueError(f"Instance {id} not found")` -/
  | instanceNotFound (id : String)
  /-- an exception raised by the agent's event stream, re-raised by
  `query_instance` after recording the error status -/
  | agentFault
deriving Repr, DecidableEq

/-- Effect events emitted by the registry operations, in program order;
`lockAcquire`/`lockRelease` delimit the `async with self._lock:` block. -/
inductive Action where
  | lockAcquire
  | lockRelease
  /-- read of the in-memory registry map (`in` test / `len`) -/
  | mapRead
  /-- in-memory registry map insert -/
  | mapInsert
  /-- in-memory registry map delete -/
  | mapDelete
  /-- the `os.path.exists` / `os.makedirs` working-directory block -/
  | fsWorkingDir
  /-- a storage write (`db.commit()` inside `get_db_context`) -/
  | dbWrite
deriving Repr, DecidableEq

/-- Update the persisted `Instance` row `id` to the given status,
stamping `terminated_at` with the clock when asked; models the
`async with get_db_context()` blocks of `start_instance` and
`terminate_instance`. -/
def dbSetInstanceStatus (db : DB) (id : String) (status : String)
    (stampTerminated : Bool) : DB :=
  { db with
    instances := db.instances.map (fun row =>
      if row.id = id then
        { row with
          status := status
          terminated_at :=
            if stampTerminated then some db.clock else row.terminated_at }
      else row)
    clock := db.clock + 1 }

/-- `ClaudeManager.start_instance`: under the registry lock, reject a
duplicate identifier, reject when the registry is full, otherwise
materialize the working directory, insert a fresh live handle and report
`active` to storage. `maxInstances` is `settings.max_instances`. -/
def startInstance (maxInstances : Nat) (mgr : ClaudeManager) (db : DB)
    (inst : InstanceRow) :
    Except MgrError Unit × ClaudeManager × DB × List Action :=
  if (alookup mgr.instances inst.id).isSome then
    (Except.error (MgrError.alreadyExists inst.id), mgr, db,
      [Action.lockAcquire, Action.mapRead, Action.lockRelease])
  else if maxInstances ≤ mgr.instances.length then
    (Except.error (MgrError.maxInstancesReached maxInstances), mgr, db,
      [Action.lockAcquire, Action.mapRead, Action.mapRead,
        Action.lockRelease])
  else
    let wd := inst.working_directory.getD "os.getcwd()"
    let handle : ClaudeInstance :=
      ⟨inst.id, wd, inst.environment_vars, true, none⟩
    let mgr' := { mgr with instances := aset mgr.instances inst.id handle }
    let db' := dbSetInstanceStatus db inst.id "active" false
    (Except.ok (), mgr', db',
      [Action.lockAcquire, Action.mapRead, Action.mapRead,
        Action.fsWorkingDir, Action.mapInsert, Action.dbWrite,
        Action.lockRelease])

/-- `ClaudeManager.terminate_instance`: under the registry lock, a missing
entry is only logged (no error); otherwise the handle is marked inactive,
removed from the registry, and `terminated` with a termination timestamp
is reported to storage. -/
def terminateInstance (mgr : ClaudeManager) (db : DB) (inst : InstanceRow) :
    Except MgrError Unit × ClaudeManager × DB × List Action :=
  match alookup mgr.instances inst.id with
  | none =>
    (Except.ok (), mgr, db,
      [Action.lockAcquire, Action.mapRead, Action.lockRelease])
  | some handle =>
    let _ := { handle with active := false }
    let mgr' := { mgr with instances := aerase mgr.instances inst.id }
    let db' := dbSetInstanceStatus db inst.id "terminated" true
    (Except.ok (), mgr', db',
      [Action.lockAcquire, Action.mapRead, Action.mapDelete,
        Action.dbWrite, Action.lockRelease])

/-- `ClaudeManager.get_instance_status`: `"active"`/`"inactive"` from the
handle's liveness flag when the registry has an entry, `"terminated"`
otherwise. -/
def getInstanceStatus (mgr : ClaudeManager) (instance_id : String) :
    String :=
  match alookup mgr.instances instance_id with
  | some handle => if handle.active then "active" else "inactive"
  | none => "terminated"

/-- A content block of a streamed message: `TextBlock` or anything else. -/
inductive Block where
  | text (s : String)
  | otherBlock
deriving Repr, DecidableEq

/-- A streamed `Message` from the agent runtime: `AssistantMessage` with
its content blocks, or any other message kind (ignored by the loop). -/
inductive AgentMsg where
  | assistant (content : List Block)
  | otherMsg
deriving Repr, DecidableEq

/-- One run of the agent's event stream for a query: the events it yields
in order, and whether it raises after yielding them (a mid-stream fault). -/
structure AgentRun where
  events : List AgentMsg
  fault : Bool
deriving Repr, DecidableEq

/-- The `response_content` list accumulated by `query_instance`'s
`async for` loop: the text of every `TextBlock` of every
`AssistantMessage`, in stream order. -/
def collectText (events : List AgentMsg) : List String :=
  events.foldl
    (fun acc m =>
      match m with
      | AgentMsg.assistant blocks =>
        acc ++ blocks.filterMap
          (fun b =>
            match b with
            | Block.text s => some s
            | Block.otherBlock => none)
      | AgentMsg.otherMsg => acc)
    []

/-- First half of `ClaudeManager.query_instance`, up to the suspension
point where the agent's event stream starts being consumed: checks the
registry for the handle, allocates the fresh session id, stores it in
the handle's `current_session_id`, creates the `active` session row and
the `user` message row, and commits. Returns the session id. -/
def queryBegin (mgr : ClaudeManager) (db : DB) (instId : String)
    (prompt : String) :
    Except MgrError Nat × ClaudeManager × DB :=
  match alookup mgr.instances instId with
  | none => (Except.error (MgrError.instanceNotFound instId), mgr, db)
  | some handle =>
    let sid := mgr.nextUuid
    let handle' := { handle with current_session_id := some sid }
    let mgr' : ClaudeManager :=
      ⟨aset mgr.instances instId handle', mgr.nextUuid + 1⟩
    let session : SessionRow := ⟨sid, instId, "active", db.clock, none⟩
    let userMsg : MessageRow := ⟨sid, "user", prompt, db.clock⟩
    let db' : DB :=
      { db with
        sessions := db.sessions ++ [session]
        messages := db.messages ++ [userMsg]
        clock := db.clock + 1 }
    (Except.ok sid, mgr', db')

/-- Row-level update applied by `dbSetSessionStatus`: the row whose id is
`sid` gets the new status (and the `ended_at` stamp when asked); every
other row is untouched. -/
def setSessionRow (sid : Nat) (status : String) (stampEnded : Bool)
    (clock : Nat) (row : SessionRow) : SessionRow :=
  if row.id = sid then
    { row with
      status := status
      ended_at := if stampEnded then some clock else row.ended_at }
  else row

/-- Update the status (and optionally the `ended_at` stamp) of session
`sid`; models the mutation of the in-context `session` object followed by
`db.commit()`. -/
def dbSetSessionStatus (db : DB) (sid : Nat) (status : String)
    (stampEnded : Bool) : DB :=
  { db with
    sessions := db.sessions.map (setSessionRow sid status stampEnded
      db.clock)
    clock := db.clock + 1 }

/-- The value `query_instance` returns (`QueryResponse`): the session id,
the roles and contents of the messages it echoes back, and the final
session status. -/
structure QueryResponse where
  session_id : Nat
  messages : List (String × String)
  status : String
deriving Repr, DecidableEq

/-- Second half of `ClaudeManager.query_instance`: consume the agent's
event stream. On normal completion, join the collected fragments with
`"\n".join(...)`, append the `assistant` message, mark the session
`completed` with an end timestamp and commit. On a raised fault, mark the
session `error`, commit, and re-raise. The handle's `current_session_id`
is not touched on either path. -/
def queryFinish (mgr : ClaudeManager) (db : DB) (prompt : String)
    (sid : Nat) (run : AgentRun) :
    Except MgrError QueryResponse × ClaudeManager × DB :=
  if run.fault then
    (Except.error MgrError.agentFault, mgr,
      dbSetSessionStatus db sid "error" false)
  else
    let assistantContent := String.intercalate "\n" (collectText run.events)
    let assistantMsg : MessageRow :=
      ⟨sid, "assistant", assistantContent, db.clock⟩
    let db' : DB :=
      { db with
        messages := db.messages ++ [assistantMsg]
        clock := db.clock }
    let db'' := dbSetSessionStatus db' sid "completed" true
    (Except.ok
      ⟨sid, [("user", prompt), ("assistant", assistantContent)],
        "completed"⟩,
      mgr, db'')

/-- `ClaudeManager.query_instance`: the composition of `queryBegin` and
`queryFinish`; `run` is the behaviour of the agent's event stream for
this call. -/
def queryInstance (mgr : ClaudeManager) (db : DB) (instId : String)
    (prompt : String) (run : AgentRun) :
    Except MgrError QueryResponse × ClaudeManager × DB :=
  match queryBegin mgr db instId prompt with
  | (Except.error e, mgr', db') => (Except.error e, mgr', db')
  | (Except.ok sid, mgr', db') => queryFinish mgr' db' prompt sid run

/-- `ClaudeManager.cleanup_terminated_instances`: delete every registry
entry whose handle is no longer live. -/
def cleanupTerminatedInstances (mgr : ClaudeManager) : ClaudeManager :=
  { mgr with instances := mgr.instances.filter (fun p => p.2.active) }

/-- `ClaudeManager.restart_instance`: terminate when present, then start. -/
def restartInstance (maxInstances : Nat) (mgr : ClaudeManager) (db : DB)
    (inst : InstanceRow) :
    Except MgrError Unit × ClaudeManager × DB × List Action :=
  if (alookup mgr.instances inst.id).isSome then
    let t := terminateInstance mgr db inst
    startInstance maxInstances t.2.1 t.2.2.1 inst
  else
    startInstance maxInstances mgr db inst

/-- One externally triggered manager operation. -/
inductive Step where
  | startOp (inst : InstanceRow)
  | terminateOp (inst : InstanceRow)
  | restartOp (inst : InstanceRow)
  | queryOp (instId : String) (prompt : String) (run : AgentRun)
  | cleanupOp
deriving Repr, DecidableEq

/-- Apply one manager operation to the shared state (registry plus
database), discarding the value returned to the caller. -/
def applyStep (maxInstances : Nat) (s : ClaudeManager × DB) (st : Step) :
    ClaudeManager × DB :=
  match st with
  | Step.startOp inst =>
    let r := startInstance maxInstances s.1 s.2 inst
    (r.2.1, r.2.2.1)
  | Step.terminateOp inst =>
    let r := terminateInstance s.1 s.2 inst
    (r.2.1, r.2.2.1)
  | Step.restartOp inst =>
    let r := restartInstance maxInstances s.1 s.2 inst
    (r.2.1, r.2.2.1)
  | Step.queryOp instId prompt run =>
    let r := queryInstance s.1 s.2 instId prompt run
    (r.2.1, r.2.2)
  | Step.cleanupOp => (cleanupTerminatedInstances s.1, s.2)

/-- States reachable by a fresh manager driven by any sequence of manager
operations, over a store that starts with arbitrary instance rows and no
session or message rows. -/
inductive Reachable (maxInstances : Nat) : ClaudeManager × DB → Prop where
  | init (rows : List InstanceRow) (c : Nat) :
      Reachable maxInstances (ClaudeManager.init, ⟨rows, [], [], c⟩)
  | step (s : ClaudeManager × DB) (st : Step) :
      Reachable maxInstances s →
      Reachable maxInstances (applyStep maxInstances s st)

/-- The messages of session `sid`, in insertion (append) order. -/
def sessionMsgs (db : DB) (sid : Nat) : List MessageRow :=
  db.messages.filter (fun m => m.session_id == sid)

/-- `db.get(Instance, instance_id)`: primary-key lookup of a persisted
instance row. -/
def dbGetInstance (db : DB) (instId : String) : Option InstanceRow :=
  db.instances.find? (fun row => row.id == instId)

/-- The transcript shape `query_instance` leaves behind for a session it
completes: exactly a `user` message followed by an `assistant` message,
with non-decreasing timestamps. -/
def SessionShaped (db : DB) (sid : Nat) : Prop :=
  ∃ u a, sessionMsgs db sid = [u, a] ∧ u.role = "user" ∧
    a.role = "assistant" ∧ u.timestamp ≤ a.timestamp

/-- Inductive invariant of the reachable states: session and message
rows only mention session ids below the fresh counter, and every
`completed` session's transcript has the two-message shape. -/
def Inv (s : ClaudeManager × DB) : Prop :=
  (∀ sess ∈ s.2.sessions, sess.id < s.1.nextUuid) ∧
  (∀ m ∈ s.2.messages, m.session_id < s.1.nextUuid) ∧
  (∀ sess ∈ s.2.sessions, sess.status = "completed" →
    SessionShaped s.2 sess.id)

/-- A control message sent by a websocket client. For the interactive
endpoint a `queryReq` carries, besides the prompt, the behaviour the
agent stream will exhibit for that query (the model's oracle for the
external runtime). -/
inductive ClientMsg where
  | ping
  | statusReq
  | queryReq (prompt : String) (run : AgentRun)
  | otherMsg
deriving Repr, DecidableEq

/-- A server-emitted websocket event. The timestamp tag and the exact
rendering of streamed messages and exceptions are abstracted: `outputEv`
carries the streamed message itself, `errorEv` the error text (with the
rendering of a propagated exception fixed to a placeholder). -/
inductive WSEvent where
  | errorEv (data : String)
  | statusEv (data : String)
  | pongEv
  | outputEv (msg : AgentMsg)
deriving Repr, DecidableEq

/-- Result of running a websocket endpoint against a connected client:
the events the server sent, whether the server closed the channel itself,
and how many client control messages it read off the channel. -/
structure WSOutcome where
  events : List WSEvent
  closedByServer : Bool
  consumed : Nat
deriving Repr, DecidableEq

/-- Message loop of `websocket_stream_endpoint`: `ping` answers `pong`,
`status` answers the manager's status snapshot, anything else is
ignored; the loop ends when the client disconnects (the list is
exhausted). -/
def streamLoop (mgr : ClaudeManager) (instId : String)
    (incoming : List ClientMsg) : List WSEvent :=
  incoming.foldl
    (fun acc m =>
      match m with
      | ClientMsg.ping => acc ++ [WSEvent.pongEv]
      | ClientMsg.statusReq =>
        acc ++ [WSEvent.statusEv (getInstanceStatus mgr instId)]
      | ClientMsg.queryReq _ _ => acc
      | ClientMsg.otherMsg => acc)
    []

/-- `websocket_stream_endpoint`: accept, verify that the instance exists
and is `active` (else send a single error event and close), send the
connected status event, then run the message loop until the client
disconnects. -/
def websocketStreamEndpoint (db : DB) (mgr : ClaudeManager)
    (instId : String) (incoming : List ClientMsg) : WSOutcome :=
  let ok :=
    match dbGetInstance db instId with
    | none => false
    | some row => row.status = "active"
  if ok then
    { events :=
        WSEvent.statusEv "Connected to instance" ::
          streamLoop mgr instId incoming
      closedByServer := false
      consumed := incoming.length }
  else
    { events := [WSEvent.errorEv "Instance not found or not active"]
      closedByServer := true
      consumed := 0 }

/-- Events emitted while serving one `query` control message of
`websocket_interact_endpoint`: the processing acknowledgment, then either
the caught "not found in manager" error, or the streamed output events
followed by the completion status (or an error event if the stream
raised; exceptions are caught, so the loop continues either way). -/
def interactQueryEvents (mgr : ClaudeManager) (instId : String)
    (run : AgentRun) : List WSEvent :=
  WSEvent.statusEv "Processing query..." ::
    (match alookup mgr.instances instId with
    | none => [WSEvent.errorEv "Query error: Instance not found in manager"]
    | some _ =>
      run.events.map WSEvent.outputEv ++
        (if run.fault then [WSEvent.errorEv "Query error: agent fault"]
          else [WSEvent.statusEv "Query completed"]))

/-- Message loop of `websocket_interact_endpoint`: only `query` control
messages are handled; the loop ends when the client disconnects. -/
def interactLoop (mgr : ClaudeManager) (instId : String)
    (incoming : List ClientMsg) : List WSEvent :=
  incoming.foldl
    (fun acc m =>
      match m with
      | ClientMsg.queryReq _ run =>
        acc ++ interactQueryEvents mgr instId run
      | _ => acc)
    []

/-- `websocket_interact_endpoint`: accept, verify that the instance
exists and is `active` (else send a single error event and close), send
the ready status event, then run the interactive loop until the client
disconnects. -/
def websocketInteractEndpoint (db : DB) (mgr : ClaudeManager)
    (instId : String) (incoming : List ClientMsg) : WSOutcome :=
  let ok :=
    match dbGetInstance db instId with
    | none => false
    | some row => row.status = "active"
  if ok then
    { events :=
        WSEvent.statusEv "Ready for interaction" ::
          interactLoop mgr instId incoming
      closedByServer := false
      consumed := incoming.length }
  else
    { events := [WSEvent.errorEv "Instance not found or not active"]
      closedByServer := true
      consumed := 0 }

/-- Transport type of a persisted `MCPServer` row. -/
inductive MCPType where
  | stdio
  | http
  | sse
deriving Repr, DecidableEq

/-- Persisted `MCPServer` row (the fields `export_mcp_config` reads). -/
structure MCPServerRow where
  id : String
  name : String
  type : MCPType
  command : Option String
  url : Option String
  args : List String
  env : List (String × String)
  enabled : Bool
deriving Repr, DecidableEq

/-- One `<name>` entry of the exported `.mcp.json` dictionary. A field
set to `none` stands for the key being absent (the code only writes the
`command`/`url` keys with whatever — possibly null — value the row
holds; no claim distinguishes a null value from an absent key). -/
structure ServerConfig where
  command : Option String := none
  url : Option String := none
  args : Option (List String) := none
  env : Option (List (String × String)) := none
deriving Repr, DecidableEq

/-- The per-server dictionary built by the loop body of
`export_mcp_config`: `command` (plus `args` when the list is non-empty,
Python truthiness) for `stdio`, `url` for `http`/`sse`, and `env` when
the mapping is non-empty. -/
def serverConfigOf (s : MCPServerRow) : ServerConfig :=
  let base : ServerConfig :=
    match s.type with
    | MCPType.stdio =>
      { command := s.command
        args := if s.args.isEmpty then none else some s.args }
    | MCPType.http => { url := s.url }
    | MCPType.sse => { url := s.url }
  { base with env := if s.env.isEmpty then none else some s.env }

/-- `MCPService.export_mcp_config`: select the enabled rows and fold them
into the `servers` dictionary keyed by name (a later row with the same
name overwrites an earlier one, as in a Python dict). -/
def exportMCPConfig (rows : List MCPServerRow) :
    List (String × ServerConfig) :=
  (rows.filter (fun s => s.enabled)).foldl
    (fun acc s => aset acc s.name (serverConfigOf s)) []

/-- Modelled from the spec: the per-server entry of the documented
config-export format, `{command|url, args?, env?}` — `command` for a
stdio server, `url` for an http/sse server, `args` only when non-empty,
`env` only when non-empty. -/
def specServerEntry (s : MCPServerRow) : ServerConfig :=
  match s.type with
  | MCPType.stdio =>
    { command := s.command
      args := if s.args.isEmpty then none else some s.args
      env := if s.env.isEmpty then none else some s.env }
  | MCPType.http =>
    { url := s.url
      env := if s.env.isEmpty then none else some s.env }
  | MCPType.sse =>
    { url := s.url
      env := if s.env.isEmpty then none else some s.env }

/-- Modelled from the spec: the documented export groups the enabled
entries by name, omitting disabled entries. -/
def specExportConfig (rows : List MCPServerRow) :
    List (String × ServerConfig) :=
  (rows.filter (fun s => s.enabled)).map
    (fun s => (s.name, specServerEntry s))

/-- The actions of a trace performed while the registry lock is held. -/
def actionsWhileLocked (tr : List Action) : List Action :=
  (tr.foldl
    (fun (st : Nat × List Action) a =>
      match a with
      | Action.lockAcquire => (st.1 + 1, st.2)
      | Action.lockRelease => (st.1 - 1, st.2)
      | _ => if 0 < st.1 then (st.1, st.2 ++ [a]) else st)
    (0, [])).2

/-! Concrete scenario states used below. -/

/-- A persisted instance row for identifier `"a"`. -/
def rowA : InstanceRow := ⟨"a", "inactive", some "/wa", [], none⟩

/-- A persisted instance row for identifier `"b"`. -/
def rowB : InstanceRow := ⟨"b", "inactive", some "/wb", [], none⟩

/-- A store holding the two instance rows and nothing else. -/
def db0 : DB := ⟨[rowA, rowB], [], [], 0⟩

/-- `start("a")` on a fresh manager with the default capacity. -/
def startA : Except MgrError Unit × ClaudeManager × DB × List Action :=
  startInstance 5 ClaudeManager.init db0 rowA

/-- The first half of a query on `"a"`, leaving its session in flight. -/
def qBeginA : Except MgrError Nat × ClaudeManager × DB :=
  queryBegin startA.2.1 startA.2.2.1 "a" "hello"

/-- A stream that yields two assistant events and then raises. -/
def runFault : AgentRun :=
  ⟨[AgentMsg.assistant [Block.text "one"],
    AgentMsg.assistant [Block.text "two"]], true⟩

/-- Full query on `"a"` against the faulting stream. -/
def queryFaultA : Except MgrError QueryResponse × ClaudeManager × DB :=
  queryInstance startA.2.1 startA.2.2.1 "a" "hello" runFault

/-- The stream of the spec's scenario: yields `"Hi"` then `" there"`. -/
def runHi : AgentRun :=
  ⟨[AgentMsg.assistant [Block.text "Hi"],
    AgentMsg.assistant [Block.text " there"]], false⟩

/-- Full query on `"a"` against the `["Hi", " there"]` stream. -/
def queryHiA : Except MgrError QueryResponse × ClaudeManager × DB :=
  queryInstance startA.2.1 startA.2.2.1 "a" "hello" runHi

/-- Capacity-1 scenario, first step: `start("a")`. -/
def cap1A : Except MgrError Unit × ClaudeManager × DB × List Action :=
  startInstance 1 ClaudeManager.init db0 rowA

/-- Capacity-1 scenario, second step: `start("b")` at capacity. -/
def cap1B : Except MgrError Unit × ClaudeManager × DB × List Action :=
  startInstance 1 cap1A.2.1 cap1A.2.2.1 rowB

/-- Capacity-1 scenario, third step: `terminate("a")`. -/
def cap1T : Except MgrError Unit × ClaudeManager × DB × List Action :=
  terminateInstance cap1B.2.1 cap1B.2.2.1 rowA

/-- Capacity-1 scenario, fourth step: `start("b")` again. -/
def cap1B2 : Except MgrError Unit × ClaudeManager × DB × List Action :=
  startInstance 1 cap1T.2.1 cap1T.2.2.1 rowB

/-- A persisted instance row whose status is `terminated`. -/
def rowT : InstanceRow := ⟨"t", "terminated", none, [], none⟩

/-- A store holding only the terminated instance row. -/
def dbT : DB := ⟨[rowT], [], [], 0⟩

/-- An enabled stdio tool-server row named `"x"` with command `"a"`. -/
def mcpR1 : MCPServerRow :=
  ⟨"id1", "x", MCPType.stdio, some "cmd-a", none, [], [], true⟩

/-- A second enabled stdio tool-server row also named `"x"`. -/
def mcpR2 : MCPServerRow :=
  ⟨"id2", "x", MCPType.stdio, some "cmd-b", none, [], [], true⟩

/-- The state reached from a fresh deployment by `start("a")` followed by
a successful query against the `["Hi", " there"]` stream. -/
def c6state : ClaudeManager × DB :=
  applyStep 5
    (applyStep 5 (ClaudeManager.init, ⟨[], [], [], 0⟩) (Step.startOp rowA))
    (Step.queryOp "a" "hello" runHi)

/-! ## Helper lemmas -/

theorem alookup_cons {α : Type} (k' : String) (v' : α)
    (l : List (String × α)) (k : String) :
    alookup ((k', v') :: l) k =
      if k' == k then some v' else alookup l k := by
  by_cases h : k' == k <;> simp [alookup, List.find?, h]

theorem alookup_eq_none_of_not_mem {α : Type} (l : List (String × α))
    (k : String) (h : k ∉ l.map Prod.fst) : alookup l k = none := by
  induction l with
  | nil => rfl
  | cons p rest ih =>
    obtain ⟨k1, v1⟩ := p
    simp only [List.map_cons, List.mem_cons, not_or] at h
    rw [alookup_cons]
    have hne : (k1 == k) = false := by
      simp only [beq_eq_false_iff_ne, ne_eq]
      exact fun he => h.1 he.symm
    simp only [hne, if_false]
    exact ih h.2

theorem alookup_aerase_self {α : Type} (l : List (String × α)) (k : String)
    (h : (l.map Prod.fst).Nodup) : alookup (aerase l k) k = none := by
  induction l with
  | nil => rfl
  | cons p rest ih =>
    obtain ⟨k1, v1⟩ := p
    simp only [List.map_cons, List.nodup_cons] at h
    by_cases he : k1 = k
    · subst he
      have h1 : aerase ((k1, v1) :: rest) k1 = rest := by simp [aerase]
      rw [h1]
      exact alookup_eq_none_of_not_mem rest k1 h.1
    · have he' : (k1 == k) = false := beq_eq_false_iff_ne.mpr he
      have h1 : aerase ((k1, v1) :: rest) k = (k1, v1) :: aerase rest k := by
        simp [aerase, he']
      rw [h1, alookup_cons, he']
      simp only [if_false, Bool.false_eq_true]
      exact ih h.2

theorem alookup_aset {α : Type} (l : List (String × α)) (k : String)
    (v : α) (n : String) :
    alookup (aset l k v) n = if k == n then some v else alookup l n := by
  induction l with
  | nil =>
    rw [aset, alookup_cons]
  | cons p rest ih =>
    obtain ⟨k1, v1⟩ := p
    by_cases he : k1 = k
    · subst he
      have h1 : aset ((k1, v1) :: rest) k1 v = (k1, v) :: rest := by
        simp [aset]
      rw [h1, alookup_cons, alookup_cons]
      by_cases hn : k1 == n <;> simp [hn]
    · have he' : (k1 == k) = false := beq_eq_false_iff_ne.mpr he
      have h1 : aset ((k1, v1) :: rest) k v = (k1, v1) :: aset rest k v := by
        simp [aset, he']
      rw [h1, alookup_cons, ih, alookup_cons]
      by_cases hn : k1 = n
      · subst hn
        have hkn : (k == k1) = false :=
          beq_eq_false_iff_ne.mpr (fun hk => he hk.symm)
        simp [hkn]
      · have hn' : (k1 == n) = false := beq_eq_false_iff_ne.mpr hn
        simp [hn']

/-! ## Claim theorems -/

/-- C10: for an identifier with no registry entry — including identifiers
never started — the status snapshot returns `"terminated"`; for a
registered handle it returns `"active"` when the liveness flag is true
and `"inactive"` otherwise. -/
theorem claim_C10_status_snapshot (mgr : ClaudeManager) (id : String) :
    (alookup mgr.instances id = none →
      getInstanceStatus mgr id = "terminated") ∧
    (∀ h : ClaudeInstance, alookup mgr.instances id = some h →
      getInstanceStatus mgr id =
        if h.active then "active" else "inactive") := by
  constructor
  · intro hnone
    simp [getInstanceStatus, hnone]
  · intro h hsome
    simp [getInstanceStatus, hsome]

/-- Witness for C10: a never-started identifier reads `"terminated"` on a
fresh manager, and `"a"` reads `"active"` right after `start("a")`. -/
theorem claim_C10_status_snapshot_witness :
    getInstanceStatus ClaudeManager.init "never-started" = "terminated" ∧
    getInstanceStatus startA.2.1 "a" = "active" := by
  constructor
  · exact (claim_C10_status_snapshot ClaudeManager.init "never-started").1
      (by rfl)
  · exact (claim_C10_status_snapshot startA.2.1 "a").2
      ⟨"a", "/wa", [], true, none⟩ (by rfl)

/-- C5: `terminate` is idempotent — it never raises, afterwards the
registry holds no entry for the identifier, and a second call is a no-op
returning no error (it performs only the lock round-trip and the map
read). The hypothesis is the registry well-formedness of a Python dict:
keys are unique. -/
theorem claim_C5_terminate_idempotent (mgr : ClaudeManager) (db : DB)
    (inst : InstanceRow)
    (hwf : (mgr.instances.map Prod.fst).Nodup) :
    (terminateInstance mgr db inst).1 = Except.ok () ∧
    alookup (terminateInstance mgr db inst).2.1.instances inst.id = none ∧
    terminateInstance (terminateInstance mgr db inst).2.1
        (terminateInstance mgr db inst).2.2.1 inst =
      (Except.ok (), (terminateInstance mgr db inst).2.1,
        (terminateInstance mgr db inst).2.2.1,
        [Action.lockAcquire, Action.mapRead, Action.lockRelease]) := by
  cases hl : alookup mgr.instances inst.id with
  | none => simp [terminateInstance, hl]
  | some handle =>
    have h2 : alookup (aerase mgr.instances inst.id) inst.id = none :=
      alookup_aerase_self _ _ hwf
    simp [terminateInstance, hl, h2]

/-- Witness for C5: terminating `"a"` right after `start("a")` succeeds
and leaves no registry entry for `"a"`. -/
theorem claim_C5_terminate_idempotent_witness :
    (terminateInstance startA.2.1 startA.2.2.1 rowA).1 = Except.ok () ∧
    alookup (terminateInstance startA.2.1 startA.2.2.1 rowA).2.1.instances
        rowA.id = none := by
  have h := claim_C5_terminate_idempotent startA.2.1 startA.2.2.1 rowA
    (by decide)
  exact ⟨h.1, h.2.1⟩

/-- C1: the code never rejects a query as `Busy` — whenever the handle is
registered, even while its `current_session_id` marks a session in
flight, a further `query` is accepted (it allocates the next fresh
session id). There is no `Busy` variant in the errors the manager can
raise at all. -/
theorem claim_C1_busy_not_enforced (mgr : ClaudeManager) (db : DB)
    (id prompt : String) (h : ClaudeInstance)
    (hreg : alookup mgr.instances id = some h)
    (_hflight : h.current_session_id.isSome = true) :
    (queryBegin mgr db id prompt).1 = Except.ok mgr.nextUuid := by
  simp [queryBegin, hreg]

/-- Witness for C1: with the session of the first query on `"a"` still in
flight, a second query on `"a"` is accepted. -/
theorem claim_C1_busy_not_enforced_witness :
    (queryBegin qBeginA.2.1 qBeginA.2.2 "a" "second").1 =
      Except.ok qBeginA.2.1.nextUuid :=
  claim_C1_busy_not_enforced qBeginA.2.1 qBeginA.2.2 "a" "second"
    ⟨"a", "/wa", [], true, some 0⟩ (by rfl) (by rfl)

/-- C2: a fault raised mid-stream marks the session `error` and is
propagated to the caller, but the handle's `current_session_id` — the
only busy marker the code keeps — is left set to the failed session: the
code has no release of it. -/
theorem claim_C2_fault_leaves_marker :
    queryFaultA.1 = Except.error MgrError.agentFault ∧
    queryFaultA.2.2.sessions.map (fun s => (s.id, s.status)) =
      [(0, "error")] ∧
    (alookup queryFaultA.2.1.instances "a").map
        (fun h => h.current_session_id) = some (some 0) := by
  refine ⟨?_, ?_, ?_⟩ <;> decide

/-- Counterexample for C3: at capacity, `start` of an identifier that is
already registered fails with `AlreadyRunning`, not `CapacityExceeded` —
the duplicate check runs first. -/
theorem claim_C3_counterexample :
    1 ≤ cap1A.2.1.instances.length ∧
    (startInstance 1 cap1A.2.1 cap1A.2.2.1 rowA).1 =
      Except.error (MgrError.alreadyExists "a") ∧
    (startInstance 1 cap1A.2.1 cap1A.2.2.1 rowA).1 ≠
      Except.error (MgrError.maxInstancesReached 1) := by
  refine ⟨?_, ?_, ?_⟩ <;> decide

/-- C3 (amended): a `start` of a fresh identifier at capacity fails with
`CapacityExceeded` and leaves the registry unchanged; and in the
capacity-1 scenario `start("a")` succeeds, `start("b")` fails
`CapacityExceeded` leaving the registry as it was, `terminate("a")`
succeeds, and `start("b")` then succeeds. -/
theorem claim_C3_capacity (maxInstances : Nat) (mgr : ClaudeManager)
    (db : DB) (inst : InstanceRow)
    (hfresh : alookup mgr.instances inst.id = none)
    (hcap : maxInstances ≤ mgr.instances.length) :
    ((startInstance maxInstances mgr db inst).1 =
        Except.error (MgrError.maxInstancesReached maxInstances) ∧
      (startInstance maxInstances mgr db inst).2.1 = mgr) ∧
    (cap1A.1 = Except.ok () ∧
      cap1B.1 = Except.error (MgrError.maxInstancesReached 1) ∧
      cap1B.2.1 = cap1A.2.1 ∧
      cap1T.1 = Except.ok () ∧
      cap1B2.1 = Except.ok ()) := by
  constructor
  · simp [startInstance, hfresh, hcap]
  · refine ⟨?_, ?_, ?_, ?_, ?_⟩ <;> decide

/-- Witness for C3: `start("b")` on the capacity-1 registry already
holding `"a"` fails with `CapacityExceeded` and changes nothing. -/
theorem claim_C3_capacity_witness :
    cap1B.1 = Except.error (MgrError.maxInstancesReached 1) ∧
    cap1B.2.1 = cap1A.2.1 :=
  (claim_C3_capacity 1 cap1A.2.1 cap1A.2.2.1 rowB (by decide) (by decide)).1

/-- Counterexample for C4: against the stream that yields `"Hi"` then
`" there"`, the persisted assistant content is not the plain
concatenation `"Hi there"` (the fragments are joined with `"\n"`),
although the session does complete. -/
theorem claim_C4_counterexample :
    (queryHiA.2.2.messages.filter (fun m => m.role == "assistant")).map
        (fun m => m.content) ≠ ["Hi there"] ∧
    queryHiA.2.2.sessions.map (fun s => s.status) = ["completed"] := by
  constructor <;> decide

/-- C4 (amended): against the stream that yields `"Hi"` then `" there"`,
exactly one assistant message is persisted, its content is the
newline-joined text `"Hi\n there"`, and the session ends `completed`. -/
theorem claim_C4_newline_joined :
    (queryHiA.2.2.messages.filter (fun m => m.role == "assistant")).map
        (fun m => m.content) = ["Hi\n there"] ∧
    queryHiA.1 = Except.ok
      ⟨0, [("user", "hello"), ("assistant", "Hi\n there")], "completed"⟩ ∧
    queryHiA.2.2.sessions.map (fun s => s.status) = ["completed"] := by
  refine ⟨?_, ?_, ?_⟩ <;> decide

/-- Counterexample for C7: in a successful `start`, the storage write and
the working-directory materialization both happen while the registry
lock is held, and so does the storage write of a `terminate` that
removes a handle. -/
theorem claim_C7_counterexample :
    Action.dbWrite ∈ actionsWhileLocked startA.2.2.2 ∧
    Action.fsWorkingDir ∈ actionsWhileLocked startA.2.2.2 ∧
    Action.dbWrite ∈ actionsWhileLocked
      (terminateInstance startA.2.1 startA.2.2.1 rowA).2.2.2 := by
  refine ⟨?_, ?_, ?_⟩ <;> decide

/-- C7 (amended): the registry lock is held for the whole of `start` and
`terminate` — every successful `start` performs its filesystem block and
its storage write while holding the lock, and every `terminate` that
finds the handle performs its storage write while holding the lock. -/
theorem claim_C7_lock_covers_io (maxInstances : Nat) (mgr : ClaudeManager)
    (db : DB) (inst : InstanceRow) :
    ((startInstance maxInstances mgr db inst).1 = Except.ok () →
      Action.fsWorkingDir ∈ actionsWhileLocked
          (startInstance maxInstances mgr db inst).2.2.2 ∧
        Action.dbWrite ∈ actionsWhileLocked
          (startInstance maxInstances mgr db inst).2.2.2) ∧
    ((alookup mgr.instances inst.id).isSome →
      Action.dbWrite ∈ actionsWhileLocked
        (terminateInstance mgr db inst).2.2.2) := by
  constructor
  · intro hok
    by_cases h1 : (alookup mgr.instances inst.id).isSome
    · simp [startInstance, h1] at hok
    · by_cases h2 : maxInstances ≤ mgr.instances.length
      · simp [startInstance, h1, h2] at hok
      · have ht : (startInstance maxInstances mgr db inst).2.2.2 =
            [Action.lockAcquire, Action.mapRead, Action.mapRead,
              Action.fsWorkingDir, Action.mapInsert, Action.dbWrite,
              Action.lockRelease] := by
          simp [startInstance, h1, h2]
        rw [ht]
        constructor <;> decide
  · intro hsome
    obtain ⟨handle, hh⟩ := Option.isSome_iff_exists.mp hsome
    have ht : (terminateInstance mgr db inst).2.2.2 =
        [Action.lockAcquire, Action.mapRead, Action.mapDelete,
          Action.dbWrite, Action.lockRelease] := by
      simp [terminateInstance, hh]
    rw [ht]
    decide

/-- Witness for C7: instantiated on the successful `start("a")` and the
`terminate("a")` that follows it. -/
theorem claim_C7_lock_covers_io_witness :
    (Action.fsWorkingDir ∈ actionsWhileLocked startA.2.2.2 ∧
      Action.dbWrite ∈ actionsWhileLocked startA.2.2.2) ∧
    Action.dbWrite ∈ actionsWhileLocked
      (terminateInstance startA.2.1 startA.2.2.1 rowA).2.2.2 := by
  have h := claim_C7_lock_covers_io 5 ClaudeManager.init db0 rowA
  have h' := claim_C7_lock_covers_io 5 startA.2.1 startA.2.2.1 rowA
  exact ⟨h.1 (by decide), h'.2 (by decide)⟩

/-- C8: whenever a client connects either real-time channel for an
instance that is missing from storage or whose status is not `active`,
the endpoint emits exactly one `error` event, closes the channel itself,
and reads no control message from the client. -/
theorem claim_C8_reject_inactive (db : DB) (mgr : ClaudeManager)
    (instId : String) (incoming : List ClientMsg)
    (hbad : ∀ row, dbGetInstance db instId = some row →
      ¬ row.status = "active") :
    websocketStreamEndpoint db mgr instId incoming =
      ⟨[WSEvent.errorEv "Instance not found or not active"], true, 0⟩ ∧
    websocketInteractEndpoint db mgr instId incoming =
      ⟨[WSEvent.errorEv "Instance not found or not active"], true, 0⟩ := by
  cases hdb : dbGetInstance db instId with
  | none =>
    constructor <;>
      simp [websocketStreamEndpoint, websocketInteractEndpoint, hdb]
  | some row =>
    have h := hbad row hdb
    constructor <;>
      simp [websocketStreamEndpoint, websocketInteractEndpoint, hdb, h]

/-- Witness for C8: connecting to the `terminated` instance `"t"` while
a `ping` is queued yields the single error event, a server-side close,
and zero consumed control messages, on both endpoints. -/
theorem claim_C8_reject_inactive_witness :
    websocketStreamEndpoint dbT ClaudeManager.init "t" [ClientMsg.ping] =
      ⟨[WSEvent.errorEv "Instance not found or not active"], true, 0⟩ ∧
    websocketInteractEndpoint dbT ClaudeManager.init "t"
        [ClientMsg.ping] =
      ⟨[WSEvent.errorEv "Instance not found or not active"], true, 0⟩ :=
  claim_C8_reject_inactive dbT ClaudeManager.init "t" [ClientMsg.ping]
    (by
      intro row hr
      have h1 : dbGetInstance dbT "t" = some rowT := by decide
      rw [h1] at hr
      injection hr with h2
      rw [← h2]
      decide)

theorem alookup_map_name (l : List MCPServerRow)
    (f : MCPServerRow → ServerConfig) (n : String) :
    alookup (l.map (fun s => (s.name, f s))) n =
      (l.find? (fun s => s.name == n)).map f := by
  induction l with
  | nil => rfl
  | cons s rest ih =>
    rw [List.map_cons, alookup_cons]
    by_cases h : s.name == n
    · simp [List.find?_cons_of_pos, h]
    · rw [List.find?_cons_of_neg _ (by simp [h])]
      simp [h, ih]

theorem exportFold_lookup (l : List MCPServerRow)
    (acc : List (String × ServerConfig)) (n : String) :
    alookup
        (l.foldl (fun a s => aset a s.name (serverConfigOf s)) acc) n =
      match l.reverse.find? (fun s => s.name == n) with
      | some s => some (serverConfigOf s)
      | none => alookup acc n := by
  induction l generalizing acc with
  | nil => rfl
  | cons s rest ih =>
    rw [List.foldl_cons, ih, List.reverse_cons, List.find?_append]
    cases hf : rest.reverse.find? (fun s => s.name == n) with
    | some t => simp [Option.or]
    | none =>
      by_cases h : s.name == n
      · have hn : s.name = n := beq_iff_eq.mp h
        simp [Option.or, List.find?_cons_of_pos, h, alookup_aset, hn]
      · rw [List.find?_cons_of_neg _ (by simp [h])]
        simp [Option.or, alookup_aset, h]

theorem find?_reverse_of_nodup (l : List MCPServerRow) (n : String)
    (h : (l.map (fun s => s.name)).Nodup) :
    l.reverse.find? (fun s => s.name == n) =
      l.find? (fun s => s.name == n) := by
  induction l with
  | nil => rfl
  | cons s rest ih =>
    simp only [List.map_cons, List.nodup_cons] at h
    rw [List.reverse_cons, List.find?_append, ih h.2]
    by_cases hp : s.name == n
    · have hn : s.name = n := beq_iff_eq.mp hp
      have hnone : rest.find? (fun s => s.name == n) = none := by
        rw [List.find?_eq_none]
        intro t ht
        simp only [beq_iff_eq]
        intro he
        exact h.1 (by rw [← hn] at he; exact (List.mem_map.mpr ⟨t, ht, he⟩))
      rw [hnone]
      simp [List.find?_cons, hp, Option.or]
    · cases hrf : rest.find? (fun s => s.name == n) with
      | none =>
        simp [List.find?_cons, hp, Option.or]
        exact hrf.symm
      | some t =>
        simp [List.find?_cons, hp, Option.or]
        exact hrf.symm

theorem serverConfigOf_eq_spec (s : MCPServerRow) :
    serverConfigOf s = specServerEntry s := by
  cases ht : s.type <;> simp [serverConfigOf, specServerEntry, ht]

/-- Counterexample for C9: with two enabled records that share the name
`"x"`, the export keeps only the later record's entry, so it does not
contain exactly the enabled records (the first record's entry is
missing although the record is enabled). -/
theorem claim_C9_counterexample :
    mcpR1 ∈ [mcpR1, mcpR2] ∧ mcpR1.enabled = true ∧
    alookup (exportMCPConfig [mcpR1, mcpR2]) mcpR1.name ≠
      some (specServerEntry mcpR1) ∧
    alookup (exportMCPConfig [mcpR1, mcpR2]) "x" =
      some (specServerEntry mcpR2) := by
  refine ⟨?_, ?_, ?_, ?_⟩ <;> decide

/-- C9 (amended): when the enabled records' names are pairwise distinct,
the exported `servers` dictionary agrees everywhere with the documented
projection — exactly the enabled records, keyed by name, each mapped to
`{command|url, args?, env?}` with `args`/`env` present only when
non-empty; disabled records are omitted. With duplicate enabled names
the later record overwrites the earlier one. -/
theorem claim_C9_export_projection (rows : List MCPServerRow)
    (hnames :
      ((rows.filter (fun s => s.enabled)).map (fun s => s.name)).Nodup) :
    ∀ n, alookup (exportMCPConfig rows) n =
      alookup (specExportConfig rows) n := by
  intro n
  rw [exportMCPConfig, specExportConfig, exportFold_lookup,
    find?_reverse_of_nodup _ _ hnames, alookup_map_name]
  cases (rows.filter (fun s => s.enabled)).find? (fun s => s.name == n)
    with
  | none => rfl
  | some s => simp [serverConfigOf_eq_spec]

/-- Witness for C9: two enabled servers with distinct names, one stdio
with empty args and one sse with a non-empty env, export to the
documented entries. -/
theorem claim_C9_export_projection_witness :
    alookup
        (exportMCPConfig
          [⟨"i1", "s1", MCPType.stdio, some "run", none, [], [], true⟩,
            ⟨"i2", "s2", MCPType.sse, none, some "http://u", [],
              [("K", "V")], true⟩,
            ⟨"i3", "s3", MCPType.http, none, some "http://v", [], [],
              false⟩])
        "s2" =
      alookup
        (specExportConfig
          [⟨"i1", "s1", MCPType.stdio, some "run", none, [], [], true⟩,
            ⟨"i2", "s2", MCPType.sse, none, some "http://u", [],
              [("K", "V")], true⟩,
            ⟨"i3", "s3", MCPType.http, none, some "http://v", [], [],
              false⟩])
        "s2" :=
  claim_C9_export_projection _ (by decide) "s2"

theorem startInstance_pure (maxI : Nat) (mgr : ClaudeManager) (db : DB)
    (inst : InstanceRow) :
    (startInstance maxI mgr db inst).2.1.nextUuid = mgr.nextUuid ∧
    (startInstance maxI mgr db inst).2.2.1.sessions = db.sessions ∧
    (startInstance maxI mgr db inst).2.2.1.messages = db.messages := by
  by_cases h1 : (alookup mgr.instances inst.id).isSome
  · simp [startInstance, h1]
  · by_cases h2 : maxI ≤ mgr.instances.length <;>
      simp [startInstance, h1, h2, dbSetInstanceStatus]

theorem terminateInstance_pure (mgr : ClaudeManager) (db : DB)
    (inst : InstanceRow) :
    (terminateInstance mgr db inst).2.1.nextUuid = mgr.nextUuid ∧
    (terminateInstance mgr db inst).2.2.1.sessions = db.sessions ∧
    (terminateInstance mgr db inst).2.2.1.messages = db.messages := by
  cases hl : alookup mgr.instances inst.id <;>
    simp [terminateInstance, hl, dbSetInstanceStatus]

theorem restartInstance_pure (maxI : Nat) (mgr : ClaudeManager) (db : DB)
    (inst : InstanceRow) :
    (restartInstance maxI mgr db inst).2.1.nextUuid = mgr.nextUuid ∧
    (restartInstance maxI mgr db inst).2.2.1.sessions = db.sessions ∧
    (restartInstance maxI mgr db inst).2.2.1.messages = db.messages := by
  by_cases h : (alookup mgr.instances inst.id).isSome
  · have ht := terminateInstance_pure mgr db inst
    have hs := startInstance_pure maxI (terminateInstance mgr db inst).2.1
      (terminateInstance mgr db inst).2.2.1 inst
    simp only [restartInstance, h, if_true]
    exact ⟨by rw [hs.1, ht.1], by rw [hs.2.1, ht.2.1],
      by rw [hs.2.2, ht.2.2]⟩
  · simpa [restartInstance, h] using startInstance_pure maxI mgr db inst

theorem Inv_of_pure (mgr mgr' : ClaudeManager) (db db' : DB)
    (hn : mgr'.nextUuid = mgr.nextUuid) (hs : db'.sessions = db.sessions)
    (hm : db'.messages = db.messages) (h : Inv (mgr, db)) :
    Inv (mgr', db') := by
  obtain ⟨h1, h2, h3⟩ := h
  refine ⟨?_, ?_, ?_⟩
  · intro sess hmem
    rw [hn]
    exact h1 sess (hs ▸ hmem)
  · intro m hmem
    rw [hn]
    exact h2 m (hm ▸ hmem)
  · intro sess hmem hst
    obtain ⟨u, a, heq, hu, ha, ht⟩ := h3 sess (hs ▸ hmem) hst
    exact ⟨u, a, by simpa [sessionMsgs, hm] using heq, hu, ha, ht⟩

theorem filter_sid_nil (ms : List MessageRow) (sid : Nat)
    (h : ∀ m ∈ ms, m.session_id < sid) :
    ms.filter (fun m => m.session_id == sid) = [] := by
  rw [List.filter_eq_nil_iff]
  intro m hm
  have := h m hm
  simp only [beq_iff_eq]
  omega

theorem filter_sid_append_ne (ms : List MessageRow) (m' : MessageRow)
    (sid : Nat) (h : ¬ m'.session_id = sid) :
    (ms ++ [m']).filter (fun m => m.session_id == sid) =
      ms.filter (fun m => m.session_id == sid) := by
  rw [List.filter_append]
  simp [h]

theorem setSessionRow_id (sid : Nat) (st : String) (b : Bool) (c : Nat)
    (row : SessionRow) : (setSessionRow sid st b c row).id = row.id := by
  by_cases h : row.id = sid <;> simp [setSessionRow, h]

theorem setSessionRow_ne (sid : Nat) (st : String) (b : Bool) (c : Nat)
    (row : SessionRow) (h : ¬ row.id = sid) :
    setSessionRow sid st b c row = row := by
  simp [setSessionRow, h]

theorem setSessionRow_status_eq (sid : Nat) (st : String) (b : Bool)
    (c : Nat) (row : SessionRow) (h : row.id = sid) :
    (setSessionRow sid st b c row).status = st := by
  simp [setSessionRow, h]

theorem inv_queryInstance (mgr : ClaudeManager) (db : DB)
    (instId prompt : String) (run : AgentRun) (ih : Inv (mgr, db)) :
    Inv ((queryInstance mgr db instId prompt run).2.1,
      (queryInstance mgr db instId prompt run).2.2) := by
  obtain ⟨ih1, ih2, ih3⟩ := ih
  cases hl : alookup mgr.instances instId with
  | none =>
    simp only [queryInstance, queryBegin, hl]
    exact ⟨ih1, ih2, ih3⟩
  | some handle =>
    have hq : queryInstance mgr db instId prompt run =
        queryFinish
          ⟨aset mgr.instances instId
              { handle with current_session_id := some mgr.nextUuid },
            mgr.nextUuid + 1⟩
          { db with
            sessions := db.sessions ++
              [⟨mgr.nextUuid, instId, "active", db.clock, none⟩]
            messages := db.messages ++
              [⟨mgr.nextUuid, "user", prompt, db.clock⟩]
            clock := db.clock + 1 }
          prompt mgr.nextUuid run := by
      simp [queryInstance, queryBegin, hl]
    rw [hq]
    have hidlt : ∀ t ∈ db.sessions, ¬ t.id = mgr.nextUuid :=
      fun t ht => Nat.ne_of_lt (ih1 t ht)
    by_cases hf : run.fault
    · simp only [queryFinish, hf, if_true, dbSetSessionStatus]
      refine ⟨?_, ?_, ?_⟩
      · intro sess hmem
        simp only [List.map_append, List.map_cons, List.map_nil,
          List.mem_append, List.mem_singleton] at hmem
        rcases hmem with hmem | rfl
        · obtain ⟨t, ht, rfl⟩ := List.mem_map.mp hmem
          rw [setSessionRow_id]
          exact Nat.lt_succ_of_lt (ih1 t ht)
        · rw [setSessionRow_id]
          exact Nat.lt_succ_self _
      · intro m hmem
        simp only [List.mem_append, List.mem_singleton] at hmem
        rcases hmem with hmem | rfl
        · exact Nat.lt_succ_of_lt (ih2 m hmem)
        · exact Nat.lt_succ_self _
      · intro sess hmem hst
        simp only [List.map_append, List.map_cons, List.map_nil,
          List.mem_append, List.mem_singleton] at hmem
        rcases hmem with hmem | rfl
        · obtain ⟨t, ht, rfl⟩ := List.mem_map.mp hmem
          have hne : ¬ t.id = mgr.nextUuid := hidlt t ht
          rw [setSessionRow_ne _ _ _ _ _ hne] at hst ⊢
          obtain ⟨u, a, heq, hu, ha, hts⟩ := ih3 t ht hst
          refine ⟨u, a, ?_, hu, ha, hts⟩
          simp only [sessionMsgs] at heq ⊢
          rw [filter_sid_append_ne _ _ _ (fun hc => hne hc.symm)]
          exact heq
        · have hsst : (setSessionRow mgr.nextUuid "error" false
              (db.clock + 1)
              ⟨mgr.nextUuid, instId, "active", db.clock, none⟩).status =
              "error" := setSessionRow_status_eq _ _ _ _ _ rfl
          rw [hsst] at hst
          exact absurd hst (by decide)
    · have hf' : run.fault = false := by
        revert hf
        cases run.fault <;> simp
      simp only [queryFinish, hf', Bool.false_eq_true, if_false,
        dbSetSessionStatus]
      refine ⟨?_, ?_, ?_⟩
      · intro sess hmem
        simp only [List.map_append, List.map_cons, List.map_nil,
          List.mem_append, List.mem_singleton] at hmem
        rcases hmem with hmem | rfl
        · obtain ⟨t, ht, rfl⟩ := List.mem_map.mp hmem
          rw [setSessionRow_id]
          exact Nat.lt_succ_of_lt (ih1 t ht)
        · rw [setSessionRow_id]
          exact Nat.lt_succ_self _
      · intro m hmem
        simp only [List.append_assoc, List.mem_append,
          List.mem_singleton] at hmem
        rcases hmem with hmem | hmem | rfl
        · exact Nat.lt_succ_of_lt (ih2 m hmem)
        · rw [hmem]
          exact Nat.lt_succ_self _
        · exact Nat.lt_succ_self _
      · intro sess hmem hst
        simp only [List.map_append, List.map_cons, List.map_nil,
          List.mem_append, List.mem_singleton] at hmem
        rcases hmem with hmem | rfl
        · obtain ⟨t, ht, rfl⟩ := List.mem_map.mp hmem
          have hne : ¬ t.id = mgr.nextUuid := hidlt t ht
          rw [setSessionRow_ne _ _ _ _ _ hne] at hst ⊢
          obtain ⟨u, a, heq, hu, ha, hts⟩ := ih3 t ht hst
          refine ⟨u, a, ?_, hu, ha, hts⟩
          simp only [sessionMsgs] at heq ⊢
          rw [filter_sid_append_ne _ _ _ (fun hc => hne hc.symm),
            filter_sid_append_ne _ _ _ (fun hc => hne hc.symm)]
          exact heq
        · refine ⟨⟨mgr.nextUuid, "user", prompt, db.clock⟩,
            ⟨mgr.nextUuid, "assistant",
              String.intercalate "\n" (collectText run.events),
              db.clock + 1⟩, ?_, rfl, rfl, Nat.le_succ _⟩
          rw [setSessionRow_id]
          simp only [sessionMsgs]
          rw [List.filter_append, List.filter_append,
            filter_sid_nil db.messages mgr.nextUuid ih2]
          simp

theorem inv_reachable (maxI : Nat) (s : ClaudeManager × DB)
    (h : Reachable maxI s) : Inv s := by
  induction h with
  | init rows c =>
    refine ⟨?_, ?_, ?_⟩ <;> intro x hx <;> exact absurd hx
      (List.not_mem_nil x)
  | step s st _ ih =>
    cases st with
    | startOp inst =>
      have hp := startInstance_pure maxI s.1 s.2 inst
      exact Inv_of_pure s.1 _ s.2 _ hp.1 hp.2.1 hp.2.2 ih
    | terminateOp inst =>
      have hp := terminateInstance_pure s.1 s.2 inst
      exact Inv_of_pure s.1 _ s.2 _ hp.1 hp.2.1 hp.2.2 ih
    | restartOp inst =>
      have hp := restartInstance_pure maxI s.1 s.2 inst
      exact Inv_of_pure s.1 _ s.2 _ hp.1 hp.2.1 hp.2.2 ih
    | queryOp instId prompt run =>
      exact inv_queryInstance s.1 s.2 instId prompt run ih
    | cleanupOp =>
      exact Inv_of_pure s.1 _ s.2 _ rfl rfl rfl ih

/-- C6: in every reachable state, a session whose status is `completed`
has an even message count of at least 2, its first message has role
`user`, its last has role `assistant`, timestamps are non-decreasing,
and the transcript is exactly a `user` message followed by the
`assistant` message it provoked. -/
theorem claim_C6_completed_sessions (maxI : Nat) (s : ClaudeManager × DB)
    (hr : Reachable maxI s) (sess : SessionRow)
    (hmem : sess ∈ s.2.sessions) (hst : sess.status = "completed") :
    (sessionMsgs s.2 sess.id).length % 2 = 0 ∧
    2 ≤ (sessionMsgs s.2 sess.id).length ∧
    ((sessionMsgs s.2 sess.id).head?.map (fun m => m.role)) =
      some "user" ∧
    ((sessionMsgs s.2 sess.id).getLast?.map (fun m => m.role)) =
      some "assistant" ∧
    List.Chain' (fun m1 m2 => m1.timestamp ≤ m2.timestamp)
      (sessionMsgs s.2 sess.id) ∧
    ∃ u a, sessionMsgs s.2 sess.id = [u, a] ∧ u.role = "user" ∧
      a.role = "assistant" ∧ u.timestamp ≤ a.timestamp := by
  obtain ⟨u, a, heq, hu, ha, ht⟩ :=
    (inv_reachable maxI s hr).2.2 sess hmem hst
  rw [heq]
  exact ⟨by simp, by simp, by simp [hu], by simp [List.getLast?, ha],
    by simp [ht], u, a, rfl, hu, ha, ht⟩

/-- Witness for C6: the completed session of a concrete run — `start("a")`
then a successful query — satisfies all the transcript properties. -/
theorem claim_C6_completed_sessions_witness :
    (sessionMsgs c6state.2 0).length % 2 = 0 ∧
    2 ≤ (sessionMsgs c6state.2 0).length ∧
    ((sessionMsgs c6state.2 0).head?.map (fun m => m.role)) =
      some "user" ∧
    ((sessionMsgs c6state.2 0).getLast?.map (fun m => m.role)) =
      some "assistant" ∧
    List.Chain' (fun m1 m2 => m1.timestamp ≤ m2.timestamp)
      (sessionMsgs c6state.2 0) ∧
    ∃ u a, sessionMsgs c6state.2 0 = [u, a] ∧ u.role = "user" ∧
      a.role = "assistant" ∧ u.timestamp ≤ a.timestamp :=
  claim_C6_completed_sessions 5 c6state
    (Reachable.step _ (Step.queryOp "a" "hello" runHi)
      (Reachable.step _ (Step.startOp rowA) (Reachable.init [] 0)))
    ⟨0, "a", "completed", 1, some 2⟩ (by decide) (by decide)

end ClaudeUI
